import Mathlib

/-!
Verification of the PictoTale story-generation pipeline
(`src/services/storyService.js`, `src/services/aiService.js`).

Modelling conventions:
* JavaScript strings are modelled as `List Char` (`Str`); positions and
  lengths are therefore character counts (JS uses UTF-16 units, which agree
  on the basic plane).
* `text.split(/\s+/)` followed by discarding empty tokens is modelled by
  `words`, splitting on `Char.isWhitespace` (the ASCII core of JS `\s`).
* The JS float comparison `lastSentenceEnd > truncated.length * 0.7` in
  `enforceWordLimit` is modelled exactly as IEEE-754 double arithmetic:
  `0.7` is the double `3152519739159347 / 2^52`, the product is rounded to
  the nearest double (ties to even) as the hardware does, and the
  comparison is decided on the exact rounded value (`floatGt70`). Lengths
  and indices are below `2^53` in JavaScript and hence themselves exact.
* Functions are defined structurally (with an explicit fuel argument where
  the JS loop advances by more than one character) so that all of them
  evaluate inside the kernel.
-/

namespace PictoTale

/-- JavaScript strings, as lists of characters. -/
abbrev Str := List Char

/-- Negation of whitespace, the token predicate of `split(/\s+/)`. -/
def notWs (c : Char) : Bool := !c.isWhitespace

/-- Fuelled worker for `words`; fuel bounds the length of the remaining input. -/
def wordsGo : Nat → Str → List Str
  | _, [] => []
  | 0, _ :: _ => []
  | fuel + 1, c :: cs =>
    if c.isWhitespace then wordsGo fuel cs
    else (c :: cs.takeWhile notWs) :: wordsGo fuel (cs.dropWhile notWs)

/-- `text.split(/\s+/).filter(w => w.length > 0)`: the whitespace-separated
words of a string, empty tokens discarded. -/
def words (s : Str) : List Str := wordsGo s.length s

theorem length_dropWhile_le (p : α → Bool) (l : List α) :
    (l.dropWhile p).length ≤ l.length := by
  induction l with
  | nil => simp [List.dropWhile]
  | cons a t ih =>
    simp only [List.dropWhile]
    cases p a <;> simp <;> omega

theorem wordsGo_congr :
    ∀ (f₁ : Nat) (f₂ : Nat) (s : Str), s.length ≤ f₁ → s.length ≤ f₂ →
      wordsGo f₁ s = wordsGo f₂ s := by
  intro f₁
  induction f₁ with
  | zero =>
    intro f₂ s h₁ _
    have : s = [] := List.length_eq_zero.mp (Nat.le_zero.mp h₁)
    subst this
    cases f₂ <;> rfl
  | succ k ih =>
    intro f₂ s h₁ h₂
    cases s with
    | nil => cases f₂ <;> rfl
    | cons c cs =>
      cases f₂ with
      | zero => simp at h₂
      | succ m =>
        simp only [wordsGo]
        have hcs : cs.length ≤ k := by simp at h₁; omega
        have hcs' : cs.length ≤ m := by simp at h₂; omega
        by_cases hc : c.isWhitespace
        · simp only [hc, if_true]
          exact ih m cs hcs hcs'
        · have hd : (cs.dropWhile notWs).length ≤ k :=
            le_trans (length_dropWhile_le _ _) hcs
          have hd' : (cs.dropWhile notWs).length ≤ m :=
            le_trans (length_dropWhile_le _ _) hcs'
          rw [ih m (cs.dropWhile notWs) hd hd']
          simp [hc]

@[simp] theorem words_nil : words [] = [] := rfl

theorem words_cons (c : Char) (cs : Str) :
    words (c :: cs) =
      if c.isWhitespace then words cs
      else (c :: cs.takeWhile notWs) :: words (cs.dropWhile notWs) := by
  show wordsGo (c :: cs).length (c :: cs) = _
  simp only [List.length_cons, wordsGo]
  by_cases hc : c.isWhitespace
  · simp only [hc, if_true]
    rfl
  · simp only [hc, if_false]
    rw [wordsGo_congr cs.length (cs.dropWhile notWs).length (cs.dropWhile notWs)
      (length_dropWhile_le _ _) le_rfl]
    rfl

theorem words_token_shape_aux :
    ∀ (n : Nat) (s : Str), s.length ≤ n →
      ∀ w ∈ words s, w ≠ [] ∧ ∀ c ∈ w, c.isWhitespace = false := by
  intro n
  induction n using Nat.strong_induction_on with
  | _ n ih =>
    intro s hn
    cases s with
    | nil => intro w hw; simp at hw
    | cons c cs =>
      have hn' : 0 < n := by simp at hn; omega
      rw [words_cons]
      by_cases hc : c.isWhitespace
      · simp only [hc, if_true]
        intro w hw
        exact ih (n - 1) (by omega) cs (by simp at hn; omega) w hw
      · simp only [hc, if_false]
        intro w hw
        rcases List.mem_cons.mp hw with h | h
        · subst h
          refine ⟨by simp, ?_⟩
          intro x hx
          rcases List.mem_cons.mp hx with h | h
          · subst h; simpa using hc
          · have := List.mem_takeWhile_imp h
            simpa [notWs] using this
        · have hlen : (cs.dropWhile notWs).length ≤ n - 1 := by
            have := length_dropWhile_le notWs cs
            simp at hn
            omega
          exact ih (n - 1) (by omega) _ hlen w h

/-- Every token produced by `words` is nonempty and contains no whitespace. -/
theorem words_token_shape (s : Str) :
    ∀ w ∈ words s, w ≠ [] ∧ ∀ c ∈ w, c.isWhitespace = false :=
  words_token_shape_aux s.length s le_rfl

/-- JavaScript `Array.prototype.join(sep)` on a list of strings. -/
def joinSep (sep : Str) : List Str → Str
  | [] => []
  | [w] => w
  | w :: v :: ws => w ++ sep ++ joinSep sep (v :: ws)

/-- The result of splitting a string that starts with a whole token. -/
theorem words_token_append (w t : Str) (hw : w ≠ [])
    (hall : ∀ c ∈ w, c.isWhitespace = false) :
    words (w ++ t) =
      (w ++ t.takeWhile notWs) :: words (t.dropWhile notWs) := by
  cases w with
  | nil => exact absurd rfl hw
  | cons a w' =>
    have ha : a.isWhitespace = false := hall a (by simp)
    have hall' : ∀ c ∈ w', notWs c = true := by
      intro c hc
      simp [notWs, hall c (List.mem_cons_of_mem a hc)]
    rw [List.cons_append, words_cons]
    simp only [ha, Bool.false_eq_true, if_false]
    rw [List.takeWhile_append_of_pos hall', List.dropWhile_append_of_pos hall']
    simp

/-- Splitting is a left inverse of joining with a single space, for nonempty
whitespace-free tokens. -/
theorem words_joinSep (ws : List Str)
    (h : ∀ w ∈ ws, w ≠ [] ∧ ∀ c ∈ w, c.isWhitespace = false) :
    words (joinSep [' '] ws) = ws := by
  induction ws with
  | nil => rfl
  | cons w rest ih =>
    cases rest with
    | nil =>
      have hw := h w (by simp)
      have : words (w ++ ([] : Str)) = [w] := by
        rw [words_token_append w [] hw.1 hw.2]
        simp [List.takeWhile, List.dropWhile]
      simpa [joinSep] using this
    | cons v rest' =>
      have hw := h w (by simp)
      have hrest : ∀ x ∈ v :: rest', x ≠ [] ∧ ∀ c ∈ x, c.isWhitespace = false := by
        intro x hx
        exact h x (List.mem_cons_of_mem w hx)
      have hjoin : joinSep [' '] (w :: v :: rest') =
          w ++ (' ' :: joinSep [' '] (v :: rest')) := by
        simp [joinSep]
      rw [hjoin, words_token_append w _ hw.1 hw.2]
      have hsp : (' ' :: joinSep [' '] (v :: rest')).takeWhile notWs = [] := by
        simp [List.takeWhile, notWs]
      have hsp' : (' ' :: joinSep [' '] (v :: rest')).dropWhile notWs =
          ' ' :: joinSep [' '] (v :: rest') := by
        simp [List.dropWhile, notWs]
      rw [hsp, hsp', words_cons]
      simp only [Char.isWhitespace, if_true]
      rw [ih hrest]
      simp

/-- Appending on the right can only add words. -/
theorem words_length_le_append :
    ∀ (n : Nat) (l₁ : Str), l₁.length ≤ n → ∀ l₂ : Str,
      (words l₁).length ≤ (words (l₁ ++ l₂)).length := by
  intro n
  induction n using Nat.strong_induction_on with
  | _ n ih =>
    intro l₁ hn l₂
    cases l₁ with
    | nil => simp
    | cons c cs =>
      have hcs : cs.length ≤ n - 1 := by simp at hn; omega
      rw [List.cons_append, words_cons, words_cons]
      by_cases hc : c.isWhitespace
      · simp only [hc, if_true]
        exact ih (n - 1) (by simp at hn; omega) cs hcs l₂
      · simp only [hc, Bool.false_eq_true, if_false, List.length_cons]
        rw [List.dropWhile_append]
        by_cases hemp : (cs.dropWhile notWs).isEmpty
        · have hnil : List.dropWhile notWs cs = [] := by simpa using hemp
          rw [hnil]
          simp
        · simp only [hemp, Bool.false_eq_true, if_false]
          have hd : (cs.dropWhile notWs).length ≤ n - 1 :=
            le_trans (length_dropWhile_le _ _) hcs
          have := ih (n - 1) (by simp at hn; omega) (cs.dropWhile notWs) hd l₂
          omega

/-- Taking a prefix can only remove words. -/
theorem words_length_take_le (l : Str) (n : Nat) :
    (words (l.take n)).length ≤ (words l).length := by
  conv_rhs => rw [← List.take_append_drop n l]
  exact words_length_le_append (l.take n).length (l.take n) le_rfl (l.drop n)

/-- Appending a single non-whitespace character to a space-joined list of
good tokens does not change the word count. -/
theorem words_length_joinSep_append_char (c : Char) (hc : c.isWhitespace = false) :
    ∀ (ws : List Str), ws ≠ [] →
      (∀ w ∈ ws, w ≠ [] ∧ ∀ x ∈ w, x.isWhitespace = false) →
      (words (joinSep [' '] ws ++ [c])).length = ws.length := by
  intro ws
  induction ws with
  | nil => intro h; exact absurd rfl h
  | cons w rest ih =>
    intro _ h
    cases rest with
    | nil =>
      have hw := h w (by simp)
      rw [show joinSep [' '] [w] = w from rfl,
        words_token_append w [c] hw.1 hw.2]
      simp [List.takeWhile, List.dropWhile, notWs, hc]
    | cons v rest' =>
      have hw := h w (by simp)
      have hrest : ∀ x ∈ v :: rest', x ≠ [] ∧ ∀ y ∈ x, y.isWhitespace = false := by
        intro x hx
        exact h x (List.mem_cons_of_mem w hx)
      have hjoin : joinSep [' '] (w :: v :: rest') ++ [c] =
          w ++ (' ' :: (joinSep [' '] (v :: rest') ++ [c])) := by
        simp [joinSep]
      rw [hjoin, words_token_append w _ hw.1 hw.2]
      have hsp : (' ' :: (joinSep [' '] (v :: rest') ++ [c])).takeWhile notWs = [] := by
        simp [List.takeWhile, notWs]
      have hsp' : (' ' :: (joinSep [' '] (v :: rest') ++ [c])).dropWhile notWs =
          ' ' :: (joinSep [' '] (v :: rest') ++ [c]) := by
        simp [List.dropWhile, notWs]
      rw [hsp, hsp', words_cons]
      have hspc : (' ' : Char).isWhitespace = true := by decide
      simp only [hspc, if_true, List.length_cons]
      rw [ih (by simp) hrest]
      simp

/-- Sentence terminators searched for by `enforceWordLimit` (`.`, `!`, `?`). -/
def isTerm (c : Char) : Bool := c = '.' || c = '!' || c = '?'

/-- JavaScript `String.prototype.lastIndexOf` for a single character:
the greatest index holding `c`, or `-1` when `c` does not occur. -/
def lastIndexOf : Str → Char → Int
  | [], _ => -1
  | a :: as, c =>
    if 0 ≤ lastIndexOf as c then lastIndexOf as c + 1
    else if a = c then 0 else -1

/-- Position of the last sentence terminator, as an optional index
(the specification's "search backward for the last sentence terminator"). -/
def lastTermPos : Str → Option Nat
  | [] => none
  | a :: as =>
    match lastTermPos as with
    | some j => some (j + 1)
    | none => if isTerm a then some 0 else none

theorem lastIndexOf_ge_neg_one (l : Str) (c : Char) : -1 ≤ lastIndexOf l c := by
  induction l with
  | nil => simp [lastIndexOf]
  | cons a as ih =>
    simp only [lastIndexOf]
    split
    · omega
    · split <;> omega

/-- The value of the `lastSentenceEnd` computation in `enforceWordLimit`. -/
def max3 (l : Str) : Int :=
  max (max (lastIndexOf l '.') (lastIndexOf l '!')) (lastIndexOf l '?')

/-- An optional index as the value of a JS `lastIndexOf`-style search. -/
def optIdx : Option Nat → Int
  | some j => (j : Int)
  | none => -1

set_option maxHeartbeats 2000000 in
theorem max3_cons (a : Char) (as : Str) :
    max3 (a :: as) =
      if 0 ≤ max3 as then max3 as + 1 else if isTerm a then 0 else -1 := by
  have h₁ := lastIndexOf_ge_neg_one as '.'
  have h₂ := lastIndexOf_ge_neg_one as '!'
  have h₃ := lastIndexOf_ge_neg_one as '?'
  simp only [max3, lastIndexOf]
  generalize lastIndexOf as '.' = p at h₁ ⊢
  generalize lastIndexOf as '!' = e at h₂ ⊢
  generalize lastIndexOf as '?' = q at h₃ ⊢
  simp only [max_def, isTerm]
  split_ifs <;> first | omega | simp_all

/-- The maximum of the three `lastIndexOf` calls in `enforceWordLimit` is the
position of the last sentence terminator (`-1` when there is none). -/
theorem max3_eq_lastTermPos (l : Str) : max3 l = optIdx (lastTermPos l) := by
  induction l with
  | nil => simp [max3, lastIndexOf, lastTermPos, optIdx]
  | cons a as ih =>
    rw [max3_cons, ih]
    simp only [lastTermPos]
    cases hp : lastTermPos as with
    | some j =>
      simp only [optIdx]
      have : (0 : Int) ≤ (j : Int) := Int.ofNat_nonneg j
      rw [if_pos this]
      push_cast
      ring
    | none =>
      simp only [optIdx]
      rw [if_neg (by omega)]
      by_cases ha : isTerm a
      · simp [ha, optIdx]
      · simp [ha, optIdx]

/-- Fuelled floor of the base-2 logarithm. -/
def log2floor : Nat → Nat → Nat
  | 0, _ => 0
  | fuel + 1, n => if 2 ≤ n then log2floor fuel (n / 2) + 1 else 0

/-- Floor of the base-2 logarithm (fuel `n` suffices since `log2 n ≤ n`). -/
def natLog2 (n : Nat) : Nat := log2floor n n

/-- Numerator of the IEEE-754 double nearest to `0.7`: its exact value is
`3152519739159347 / 2^52 = 0.69999999999999995559…`. -/
def point7Num : Nat := 3152519739159347

/-- The comparison `e > L * 0.7` exactly as JavaScript evaluates it in
IEEE-754 doubles: the exact product `L * point7Num / 2^52` is rounded to
the nearest double (ties to even) and compared exactly with the integer
`e`. String lengths and indices in JavaScript are below `2^53`, so `L` and
`e` are themselves exact doubles. -/
def floatGt70 (e : Int) (L : Nat) : Bool :=
  let num := L * point7Num
  if num = 0 then decide (e > 0)
  else
    let b := natLog2 num
    if b ≤ 52 then
      decide (e * 2 ^ 52 > (num : Int))
    else
      let s := b - 52
      let q := num / 2 ^ s
      let r := num % 2 ^ s
      let half := 2 ^ (s - 1)
      let rounded := if half < r ∨ (r = half ∧ q % 2 = 1) then q + 1 else q
      if s ≤ 52 then decide (e * 2 ^ (52 - s) > (rounded : Int))
      else decide (e > (rounded : Int) * 2 ^ (s - 52))

/-- A cast natural is nonnegative, so `m < e * 2^k` forces `e` positive. -/
theorem floatPosAux1 (e : Int) (m k : Nat) (h : (m : Int) < e * 2 ^ k) : 0 < e := by
  have hm : (0:Int) ≤ (m : Int) := Int.ofNat_nonneg m
  have hk : (0:Int) < 2 ^ k := by positivity
  nlinarith

/-- A cast natural times a power of two is nonnegative, so `m * 2^k < e`
forces `e` positive. -/
theorem floatPosAux2 (e : Int) (m k : Nat) (h : (m : Int) * 2 ^ k < e) : 0 < e := by
  have hm : (0:Int) ≤ (m : Int) := Int.ofNat_nonneg m
  have hk : (0:Int) < 2 ^ k := by positivity
  nlinarith

set_option maxHeartbeats 1600000 in
/-- A true double comparison `e > L * 0.7` forces `e` positive, since the
rounded product is nonnegative. -/
theorem floatGt70_pos (e : Int) (L : Nat) (h : floatGt70 e L = true) : 0 < e := by
  simp only [floatGt70] at h
  split_ifs at h <;> rw [decide_eq_true_eq] at h <;>
    first
      | exact h
      | exact floatPosAux1 e _ _ h
      | exact floatPosAux2 e _ _ h

/-- At an exactly-70% terminator the double comparison cuts for length 90
(`90 * 0.7` rounds to `62.99999999999999 < 63`) but keeps for length 10
(`10 * 0.7` rounds to `7` exactly). -/
theorem floatGt70_boundary : floatGt70 63 90 = true ∧ floatGt70 7 10 = false := by
  decide

/-- Whether a string ends with a sentence terminator (`/[.!?]$/`). -/
def endsWithTerm (s : Str) : Bool :=
  match s.getLast? with
  | some c => isTerm c
  | none => false

/-- `aiService.enforceWordLimit(text, maxWords)` (aiService.js:486-517).
Splits on whitespace discarding empty tokens; if at most `maxWords` words,
returns the input unchanged; otherwise joins the first `maxWords` words with
single spaces, cuts at the last sentence terminator when the JS double
comparison `lastSentenceEnd > truncated.length * 0.7` holds (modelled
exactly by `floatGt70`), and otherwise appends a period unless one of `.`,
`!`, `?` already ends the text. -/
def enforceWordLimit (text : Str) (maxWords : Nat) : Str :=
  let ws := words text
  if ws.length ≤ maxWords then text
  else
    let truncated := joinSep [' '] (ws.take maxWords)
    let lastPeriod := lastIndexOf truncated '.'
    let lastExclamation := lastIndexOf truncated '!'
    let lastQuestion := lastIndexOf truncated '?'
    let lastSentenceEnd := max (max lastPeriod lastExclamation) lastQuestion
    if floatGt70 lastSentenceEnd truncated.length then
      truncated.take (lastSentenceEnd.toNat + 1)
    else
      if endsWithTerm truncated then truncated else truncated ++ ['.']

/-- Leading and trailing whitespace removal (`String.prototype.trim`). -/
def trimStr (s : Str) : Str :=
  ((s.dropWhile Char.isWhitespace).reverse.dropWhile Char.isWhitespace).reverse

/-- `aiService.countWords(text)`: `text.trim().split(/\s+/).filter(w => w.length > 0).length`. -/
def countWords (s : Str) : Nat := (words (trimStr s)).length

theorem enforceWordLimit_of_le (text : Str) (maxWords : Nat)
    (h : (words text).length ≤ maxWords) :
    enforceWordLimit text maxWords = text := by
  unfold enforceWordLimit
  simp [h]

theorem countWords_enforce_le (text : Str) (N : Nat) (hN : 1 ≤ N)
    (hgt : ¬ (words text).length ≤ N) :
    (words (enforceWordLimit text N)).length ≤ N := by
  have hgood : ∀ w ∈ (words text).take N, w ≠ [] ∧ ∀ c ∈ w, c.isWhitespace = false := by
    intro w hw
    exact words_token_shape text w (List.mem_of_mem_take hw)
  have htoklen : ((words text).take N).length = N := by
    rw [List.length_take]
    omega
  have htokne : (words text).take N ≠ [] := by
    intro hnil
    rw [hnil] at htoklen
    simp at htoklen
    omega
  have hwordsj : words (joinSep [' '] ((words text).take N)) = (words text).take N :=
    words_joinSep _ hgood
  unfold enforceWordLimit
  simp only [hgt, if_false]
  split
  · calc (words ((joinSep [' '] ((words text).take N)).take _)).length
        ≤ (words (joinSep [' '] ((words text).take N))).length :=
          words_length_take_le _ _
      _ = N := by rw [hwordsj, htoklen]
  · split
    · rw [hwordsj, htoklen]
    · rw [words_length_joinSep_append_char '.' (by decide) _ htokne hgood, htoklen]

theorem enforceWordLimit_zero (text : Str) (hgt : ¬ (words text).length ≤ 0) :
    enforceWordLimit text 0 = ['.'] := by
  unfold enforceWordLimit
  simp only [hgt, if_false, List.take_zero]
  rfl

/-- C3: `enforceWordLimit` is idempotent: for every text and every maxWords,
re-applying it to its own output with the same limit returns the same string. -/
theorem c3_enforce_word_limit_idempotent (text : Str) (maxWords : Nat) :
    enforceWordLimit (enforceWordLimit text maxWords) maxWords =
      enforceWordLimit text maxWords := by
  by_cases h : (words text).length ≤ maxWords
  · rw [enforceWordLimit_of_le text maxWords h, enforceWordLimit_of_le text maxWords h]
  · rcases Nat.eq_zero_or_pos maxWords with hN0 | hNpos
    · subst hN0
      rw [enforceWordLimit_zero text h]
      decide
    · exact enforceWordLimit_of_le _ _ (countWords_enforce_le text maxWords hNpos h)

/-- Appending a period when the text does not already end with a sentence
terminator (the else-branch of `enforceWordLimit`). -/
def appendPeriodIfNeeded (s : Str) : Str :=
  if endsWithTerm s then s else s ++ ['.']

/-- The word-limit enforcer exactly as the specification words it: take the
first `maxWords` words joined with single spaces; if the last sentence
terminator sits **at or beyond** 70% of the truncated length, cut there;
otherwise keep the truncated text, appending a period if needed. -/
def enforceSpecClaim (text : Str) (maxWords : Nat) : Str :=
  let ws := words text
  if ws.length ≤ maxWords then text
  else
    let truncated := joinSep [' '] (ws.take maxWords)
    match lastTermPos truncated with
    | some i =>
      if 7 * truncated.length ≤ 10 * i then truncated.take (i + 1)
      else appendPeriodIfNeeded truncated
    | none => appendPeriodIfNeeded truncated

/-- The specification's description of the enforcer, amended at the
boundary: the cut condition is the program's double-precision evaluation of
`position > 0.7 × length` (`floatGt70`). Away from the 70% boundary this
coincides with "strictly beyond 70%"; an exactly-70% terminator is resolved
by double rounding (cut for truncated length 90, keep for length 10,
`floatGt70_boundary`). -/
def enforceSpecFixed (text : Str) (maxWords : Nat) : Str :=
  let ws := words text
  if ws.length ≤ maxWords then text
  else
    let truncated := joinSep [' '] (ws.take maxWords)
    match lastTermPos truncated with
    | some i =>
      if floatGt70 (i : Int) truncated.length then truncated.take (i + 1)
      else appendPeriodIfNeeded truncated
    | none => appendPeriodIfNeeded truncated

/-- C4 counterexample: with `"abcdefg. z w"` and `maxWords = 2` the truncated
text `"abcdefg. z"` has its last terminator at index 7, exactly 70% of
length 10; the specification's "at or beyond 70%" rule cuts there, but the
code's strict `>` comparison keeps the truncated text and appends a period. -/
theorem c4_boundary_counterexample :
    enforceWordLimit ("abcdefg. z w").toList 2 ≠
      enforceSpecClaim ("abcdefg. z w").toList 2 := by
  decide

/-- C4 (amended): `enforceWordLimit` matches the specification's
description with the boundary comparison stated as the program computes it:
first `maxWords` words joined by single spaces, cut at the last sentence
terminator when the IEEE-double comparison `position > 0.7 × length` holds
(strictly beyond 70% away from the boundary; an exactly-70% terminator is
resolved by double rounding), otherwise the truncated text with a period
appended unless it already ends with a terminator. -/
theorem c4_enforce_word_limit_matches_spec (text : Str) (maxWords : Nat) :
    enforceWordLimit text maxWords = enforceSpecFixed text maxWords := by
  unfold enforceWordLimit enforceSpecFixed
  by_cases h : (words text).length ≤ maxWords
  · simp [h]
  · simp only [h, if_false]
    have hb :
        max (max (lastIndexOf (joinSep [' '] ((words text).take maxWords)) '.')
              (lastIndexOf (joinSep [' '] ((words text).take maxWords)) '!'))
            (lastIndexOf (joinSep [' '] ((words text).take maxWords)) '?') =
          optIdx (lastTermPos (joinSep [' '] ((words text).take maxWords))) :=
      max3_eq_lastTermPos _
    rw [hb]
    cases hp : lastTermPos (joinSep [' '] ((words text).take maxWords)) with
    | none =>
      simp only [optIdx]
      have hF : floatGt70 (-1)
          (joinSep [' '] ((words text).take maxWords)).length = false := by
        cases hFc : floatGt70 (-1) ((joinSep [' '] ((words text).take maxWords)).length)
        · rfl
        · have := floatGt70_pos _ _ hFc
          omega
      rw [hF]
      rfl
    | some i =>
      simp only [optIdx]
      by_cases hcut : floatGt70 (i : Int)
          (joinSep [' '] ((words text).take maxWords)).length = true
      · rw [hcut]
        simp
      · have hf : floatGt70 (i : Int)
            (joinSep [' '] ((words text).take maxWords)).length = false := by
          cases hFc : floatGt70 (i : Int) ((joinSep [' '] ((words text).take maxWords)).length)
          · rfl
          · exact absurd hFc hcut
        rw [hf]
        rfl

/-- Boolean prefix test on character lists. -/
def isPrefixB : Str → Str → Bool
  | [], _ => true
  | _ :: _, [] => false
  | a :: as, b :: bs => a == b && isPrefixB as bs

/-- JavaScript `String.prototype.includes`: `containsSub needle hay` holds
when `needle` occurs contiguously inside `hay`. -/
def containsSub (needle : Str) : Str → Bool
  | [] => isPrefixB needle []
  | b :: bs => isPrefixB needle (b :: bs) || containsSub needle bs

theorem isPrefixB_iff (n h : Str) : isPrefixB n h = true ↔ n <+: h := by
  induction n generalizing h with
  | nil => simp [isPrefixB]
  | cons a as ih =>
    cases h with
    | nil => simp [isPrefixB]
    | cons b bs =>
      simp only [isPrefixB, Bool.and_eq_true, beq_iff_eq]
      rw [ih bs]
      constructor
      · rintro ⟨rfl, hp⟩
        exact List.cons_prefix_cons.mpr ⟨rfl, hp⟩
      · intro hp
        rcases List.cons_prefix_cons.mp hp with ⟨rfl, hp'⟩
        exact ⟨rfl, hp'⟩

theorem containsSub_iff (n h : Str) : containsSub n h = true ↔ n <:+: h := by
  induction h with
  | nil =>
    simp only [containsSub]
    rw [isPrefixB_iff]
    constructor
    · intro hp
      exact hp.isInfix
    · intro hi
      exact List.prefix_nil.mpr (List.eq_nil_of_infix_nil hi)
  | cons b bs ih =>
    simp only [containsSub, Bool.or_eq_true]
    rw [isPrefixB_iff, ih]
    exact (List.infix_cons_iff).symm

/-- Safety severities reported by `isContentSafe`. -/
inductive Severity
  | safe
  | medium
  | high
deriving DecidableEq, Repr

/-- Result of the content-safety validator. -/
structure SafetyResult where
  isSafe : Bool
  flaggedWords : List Str
  severity : Severity
deriving DecidableEq, Repr

/-- The fixed denylist of `aiService.isContentSafe` (aiService.js:615-618). -/
def inappropriateWords : List Str :=
  [("scary").toList, ("frightening").toList, ("terrifying").toList,
   ("violence").toList, ("fight").toList, ("hurt").toList, ("pain").toList,
   ("danger").toList, ("weapon").toList, ("death").toList, ("kill").toList]

/-- `aiService.isContentSafe(content)` (aiService.js:614-630): lowercases the
content, collects the denylist terms occurring as substrings, and reports
severity `high` for more than two matches, `medium` for one or two, `safe`
for none; `isSafe` is true exactly when no term matched. -/
def isContentSafe (content : Str) : SafetyResult :=
  let lowercaseContent := content.map Char.toLower
  let foundWords := inappropriateWords.filter (fun w => containsSub w lowercaseContent)
  { isSafe := foundWords.length == 0
    flaggedWords := foundWords
    severity :=
      if foundWords.length > 2 then Severity.high
      else if foundWords.length > 0 then Severity.medium
      else Severity.safe }

/-- C5: the content-safety check matches the fixed denylist case-insensitively
as substrings; severity is `high` for more than two distinct flagged terms,
`medium` for one or two, `safe` for none, and `isSafe` holds exactly when the
flagged-terms list is empty. -/
theorem c5_content_safety_classification (content : Str) :
    (isContentSafe content).flaggedWords =
      inappropriateWords.filter
        (fun w => decide (w <:+: content.map Char.toLower)) ∧
    ((isContentSafe content).isSafe = true ↔
      (isContentSafe content).flaggedWords = []) ∧
    inappropriateWords.Nodup ∧
    (isContentSafe content).flaggedWords.Nodup ∧
    ((isContentSafe content).severity = Severity.high ↔
      2 < (isContentSafe content).flaggedWords.length) ∧
    ((isContentSafe content).severity = Severity.medium ↔
      (0 < (isContentSafe content).flaggedWords.length ∧
        (isContentSafe content).flaggedWords.length ≤ 2)) ∧
    ((isContentSafe content).severity = Severity.safe ↔
      (isContentSafe content).flaggedWords.length = 0) := by
  have hnodup : inappropriateWords.Nodup := by decide
  have hfilter :
      inappropriateWords.filter (fun w => containsSub w (content.map Char.toLower)) =
        inappropriateWords.filter
          (fun w => decide (w <:+: content.map Char.toLower)) := by
    apply List.filter_congr
    intro w _
    have hiff := containsSub_iff w (content.map Char.toLower)
    cases hbool : containsSub w (content.map Char.toLower) with
    | false =>
      have hnot : ¬ (w <:+: content.map Char.toLower) := by
        rw [← hiff]
        simp [hbool]
      simp [hnot]
    | true =>
      have hyes : w <:+: content.map Char.toLower := hiff.mp hbool
      simp [hyes]
  have hsev :
      (isContentSafe content).severity =
        (if (isContentSafe content).flaggedWords.length > 2 then Severity.high
         else if (isContentSafe content).flaggedWords.length > 0 then Severity.medium
         else Severity.safe) := rfl
  refine ⟨?_, ?_, hnodup, ?_, ?_, ?_, ?_⟩
  · simpa [isContentSafe] using hfilter
  · simp [isContentSafe, List.length_eq_zero]
  · exact List.Nodup.filter _ hnodup
  · rw [hsev]
    by_cases h2 : (isContentSafe content).flaggedWords.length > 2
    · simp only [if_pos h2]
      constructor <;> intro hx <;>
        first | rfl | trivial | omega | simp at hx | (exfalso; omega)
    · by_cases h0 : (isContentSafe content).flaggedWords.length > 0
      · simp only [if_neg h2, if_pos h0]
        constructor <;> intro hx <;>
          first | rfl | trivial | omega | simp at hx | (exfalso; omega)
      · simp only [if_neg h2, if_neg h0]
        constructor <;> intro hx <;>
          first | rfl | trivial | omega | simp at hx | (exfalso; omega)
  · rw [hsev]
    by_cases h2 : (isContentSafe content).flaggedWords.length > 2
    · simp only [if_pos h2]
      constructor <;> intro hx <;>
        first | rfl | trivial | omega | simp at hx | (exfalso; omega)
    · by_cases h0 : (isContentSafe content).flaggedWords.length > 0
      · simp only [if_neg h2, if_pos h0]
        constructor <;> intro hx <;>
          first | rfl | trivial | omega | simp at hx | (exfalso; omega)
      · simp only [if_neg h2, if_neg h0]
        constructor <;> intro hx <;>
          first | rfl | trivial | omega | simp at hx | (exfalso; omega)
  · rw [hsev]
    by_cases h2 : (isContentSafe content).flaggedWords.length > 2
    · simp only [if_pos h2]
      constructor <;> intro hx <;>
        first | rfl | trivial | omega | simp at hx | (exfalso; omega)
    · by_cases h0 : (isContentSafe content).flaggedWords.length > 0
      · simp only [if_neg h2, if_pos h0]
        constructor <;> intro hx <;>
          first | rfl | trivial | omega | simp at hx | (exfalso; omega)
      · simp only [if_neg h2, if_neg h0]
        constructor <;> intro hx <;>
          first | rfl | trivial | omega | simp at hx | (exfalso; omega)

/-- Outcome of one external provider call (the HTTP requests made by
`aiService`): either a value or a thrown error message. -/
inductive CallOutcome (α : Type)
  | ok (val : α)
  | err (msg : Str)
deriving DecidableEq, Repr

/-- The sound effects and expressions counted by
`aiService.countExpressions` (aiService.js:27-50), in source order
(`gasp` appears twice, as in the source). -/
def expressionsList : List Str :=
  [("whoosh").toList, ("splash").toList, ("boom").toList, ("pop").toList,
   ("zoom").toList, ("flutter").toList, ("sparkle").toList, ("ding").toList,
   ("puff").toList, ("giggle").toList, ("gasp").toList,
   ("pitter-patter").toList, ("hoot").toList, ("surprise").toList,
   ("oh my").toList, ("wow").toList, ("yay").toList, ("hooray").toList,
   ("amazing").toList, ("uh oh").toList, ("wonderful").toList,
   ("gasp").toList, ("!").toList]

/-- Fuelled worker counting non-overlapping occurrences of `pat` in the
remaining input, scanning left to right as a JS global regex does. -/
def countOccsGo (pat : Str) : Nat → Str → Nat
  | 0, _ => 0
  | _, [] => 0
  | fuel + 1, b :: bs =>
    if isPrefixB pat (b :: bs) then 1 + countOccsGo pat fuel ((b :: bs).drop pat.length)
    else countOccsGo pat fuel bs

/-- Number of non-overlapping occurrences of `pat` in `hay`. -/
def countOccs (pat hay : Str) : Nat := countOccsGo pat hay.length hay

/-- `aiService.countExpressions(text)`: total count of expression and
sound-effect matches in the lowercased text. -/
def countExpressions (text : Str) : Nat :=
  let lowerText := text.map Char.toLower
  (expressionsList.map (fun e => countOccs e lowerText)).foldl (· + ·) 0

/-- ASCII upper-case letter, the `[A-Z]` class of the regex in
`enhanceWithExpressions`. -/
def isUpperAZ (c : Char) : Bool := 'A' ≤ c && c ≤ 'Z'

/-- The global replace `/\. ([A-Z])/g → '! $1'` of
`aiService.enhanceWithExpressions`: each period followed by a space and a
capital letter becomes an exclamation mark. -/
def bangifyGo : Nat → Str → Str
  | 0, s => s
  | _, [] => []
  | fuel + 1, a :: tl =>
    if a = '.' then
      match tl with
      | b :: c :: rest =>
        if b = ' ' && isUpperAZ c then '!' :: ' ' :: c :: bangifyGo fuel rest
        else '.' :: bangifyGo fuel tl
      | _ => '.' :: bangifyGo fuel tl
    else a :: bangifyGo fuel tl

/-- Entry point of the period-to-exclamation replace, with enough fuel to
process the whole string. -/
def bangify (s : Str) : Str := bangifyGo s.length s

/-- The single (non-global) replace `/found|discovered|saw/ → '"Wow!" $&'`:
the leftmost match of one of the three words, alternatives tried in order,
gets `"Wow!" ` inserted in front of it. -/
def replaceFirstFound : Str → Str
  | [] => []
  | a :: tl =>
    if isPrefixB ("found").toList (a :: tl) then
      ("\"Wow!\" found").toList ++ (a :: tl).drop 5
    else if isPrefixB ("discovered").toList (a :: tl) then
      ("\"Wow!\" discovered").toList ++ (a :: tl).drop 10
    else if isPrefixB ("saw").toList (a :: tl) then
      ("\"Wow!\" saw").toList ++ (a :: tl).drop 3
    else a :: replaceFirstFound tl

/-- `aiService.enhanceWithExpressions(story)` (aiService.js:55-83). -/
def enhanceWithExpressions (story : Str) : Str :=
  if 3 ≤ countExpressions story then story
  else
    let enhanced := bangify story
    let enhanced2 :=
      if !(containsSub ("wow").toList (enhanced.map Char.toLower)) &&
         !(containsSub ("oh").toList (enhanced.map Char.toLower)) then
        replaceFirstFound enhanced
      else enhanced
    if 50 < countWords enhanced2 then enforceWordLimit enhanced2 50 else enhanced2

/-- The five canned stories of `generateSimulatedShortStory`
(aiService.js:554-564). -/
def simulatedStories : List Str :=
  [("Luna found a magic acorn. WHOOSH! It grew into a rainbow tree! 'Wow!' gasped the forest animals. Pitter-patter, they ran to play under sparkly branches. 'Giggle, giggle!' went Luna. 'Sharing magic makes everything wonderful!' she cheered. Hooray!").toList,
   ("Tommy opened his backpack. SURPRISE! A tiny dragon popped out! 'Oh my!' Tommy whispered. The dragon went PUFF and granted a wish. 'I wish Grandma feels better!' SPARKLE! Magic worked instantly. 'Yay!' cheered Tommy and his new friend.").toList,
   ("Princess Mia lost her crown in the forest. 'Uh oh!' she sighed. FLUTTER-FLUTTER, a wise owl appeared. 'Hoot! I'll help!' Together they solved riddles. DING! They found it in a fairy circle, glowing bright. 'Amazing!' Mia gasped. Friendship wins!").toList,
   ("Captain Sam sailed his cloud ship across starry skies. WHOOSH! A shooting star fell down. 'Gasp!' went Sam, catching it gently. ZOOM! He returned it to the grateful moon. 'Thank you!' sang the moon, giving Sam a magical compass. Adventure awaits!").toList,
   ("Ella planted seeds in grandmother's garden. POP! Overnight, flowers became a magical portal! 'Wow!' she giggled, stepping through. FLUTTER! Butterfly friends welcomed her with tea. 'Wonderful!' Ella learned flower language before skipping home with special seeds.").toList]

/-- `aiService.generateSimulatedShortStory` with the `Math.random()` pick
made explicit as an index. -/
def generateSimulatedShortStory (i : Fin 5) : Str :=
  let randomStory := simulatedStories.getD i.val []
  if 50 < countWords randomStory then enforceWordLimit randomStory 50 else randomStory

/-- The default ElevenLabs voice id (aiService.js:10). -/
def defaultVoiceId : Str := ("EXAVITQu4vr4xnSDxMaL").toList

/-- Narration result of `generateNarration`: duration and voice id
(the audio buffer itself lives in object storage, reached via the
repository save that yields a URL). -/
structure NarrationData where
  duration : Nat
  voiceId : Str
deriving DecidableEq, Repr

/-- Nondeterministic environment of one pipeline run: credential presence,
the simulated-story pick, the outcome of each external provider call, and
the URLs produced by the (assumed reliable) storage saves. Document-store
writes (`storyRepository.updateStory` etc.) are modelled as always
succeeding; the claims under verification concern provider outcomes. -/
structure Env where
  hasOpenAIKey : Bool
  hasElevenLabsKey : Bool
  simStoryIndex : Fin 5
  drawingOutcome : CallOutcome Str
  voiceOutcome : CallOutcome Str
  storyOutcome : CallOutcome Str
  titleOutcome : CallOutcome Str
  narrationOutcome : CallOutcome Unit
  userProgressOutcome : CallOutcome Unit
  audioUrl : Str
  illustrationUrls : List Str
deriving DecidableEq

/-- Fixed string returned by `analyzeDrawing` in simulated mode. -/
def simulatedDrawingAnalysis : Str :=
  ("A wonderful drawing showing creative elements including characters, objects, and a colorful scene that tells a story.").toList

/-- Fixed fallback returned by `analyzeDrawing` when the vision call throws. -/
def fallbackDrawingAnalysis : Str :=
  ("A wonderful drawing with creative elements that inspire an amazing story.").toList

/-- Fixed string returned by `transcribeVoice` in simulated mode. -/
def simulatedTranscription : Str :=
  ("I want to tell a story about adventure and friendship.").toList

/-- `aiService.analyzeDrawing` (aiService.js:87-130): simulated without a
key; a caught provider error degrades to a fixed fallback description. -/
def analyzeDrawing (hasOpenAIKey : Bool) (provider : CallOutcome Str) : Str :=
  if hasOpenAIKey = false then simulatedDrawingAnalysis
  else
    match provider with
    | CallOutcome.ok description => description
    | CallOutcome.err _ => fallbackDrawingAnalysis

/-- `aiService.transcribeVoice` (aiService.js:135-177): simulated without a
key; a caught provider error degrades to the empty string. -/
def transcribeVoice (hasOpenAIKey : Bool) (provider : CallOutcome Str) : Str :=
  if hasOpenAIKey = false then simulatedTranscription
  else
    match provider with
    | CallOutcome.ok text => text
    | CallOutcome.err _ => []

/-- `aiService.generateStory` (aiService.js:182-254): simulated story
without a key; otherwise the provider text is trimmed, expression-enhanced
and word-limited, and a provider error is rethrown as
`Failed to generate story content`. -/
def generateStory (e : Env) : CallOutcome Str :=
  if e.hasOpenAIKey = false then
    CallOutcome.ok (generateSimulatedShortStory e.simStoryIndex)
  else
    match e.storyOutcome with
    | CallOutcome.ok raw =>
      CallOutcome.ok (enforceWordLimit (enhanceWithExpressions (trimStr raw)) 200)
    | CallOutcome.err _ => CallOutcome.err ("Failed to generate story content").toList

/-- The templated fallback title `A Magical ${storyType.name} Tale`. -/
def fallbackTitle (storyTypeName : Str) : Str :=
  ("A Magical ").toList ++ storyTypeName ++ (" Tale").toList

/-- `aiService.generateTitle` (aiService.js:259-291): the fallback title
without a key or on a caught provider error; otherwise the provider text
with double quotes stripped and trimmed. This call never throws. -/
def generateTitle (e : Env) (storyTypeName : Str) : Str :=
  if e.hasOpenAIKey = false then fallbackTitle storyTypeName
  else
    match e.titleOutcome with
    | CallOutcome.ok t => trimStr (t.filter (fun c => c ≠ '"'))
    | CallOutcome.err _ => fallbackTitle storyTypeName

/-- `aiService.generateNarration` (aiService.js:296-364): simulated audio
without a key; a provider error is rethrown as
`Failed to generate audio narration`. Duration is
`Math.ceil(wordCount * 0.5)` in both modes. -/
def generateNarration (e : Env) (text : Str) : CallOutcome NarrationData :=
  if e.hasElevenLabsKey = false then
    CallOutcome.ok { duration := (countWords text + 1) / 2, voiceId := defaultVoiceId }
  else
    match e.narrationOutcome with
    | CallOutcome.ok _ =>
      CallOutcome.ok { duration := (countWords text + 1) / 2, voiceId := defaultVoiceId }
    | CallOutcome.err _ => CallOutcome.err ("Failed to generate audio narration").toList

/-- A story type: name plus characteristics (models/storyModels.js). -/
structure StoryType where
  name : Str
  characteristics : List Str
deriving DecidableEq

/-- The word ceiling `this.maxStoryWords` (aiService.js:13). -/
def maxStoryWords : Nat := 200

/-- Input of `buildStoryPrompt`; an absent user prompt is the empty string
(falsy in JS). Character descriptions are the object's entries in insertion
order. -/
structure PromptInput where
  storyType : StoryType
  drawingAnalysis : Str
  voiceTranscription : Str
  characterNames : List Str
  characterDescriptions : List (Str × Str)
  userPrompt : Str
  language : Str
deriving DecidableEq

/-- `aiService.buildStoryPrompt(input)` (aiService.js:433-481): the
deterministic concatenation of the prompt pieces. -/
def buildStoryPrompt (input : PromptInput) : Str :=
  let p0 := ("Create a complete children's story in EXACTLY ").toList ++
    (Nat.repr maxStoryWords).toList ++ (" words or less. Genre: ").toList ++
    input.storyType.name ++ (". ").toList
  let p1 := if input.drawingAnalysis ≠ [] then
      p0 ++ ("Based on this drawing: ").toList ++ input.drawingAnalysis ++ (". ").toList
    else p0
  let p2 := if input.voiceTranscription ≠ [] then
      p1 ++ ("Include: \"").toList ++ input.voiceTranscription ++ ("\". ").toList
    else p1
  let p3 := if input.characterNames.length > 0 then
      p2 ++ ("Characters: ").toList ++ joinSep (", ").toList input.characterNames ++ (". ").toList
    else p2
  let p4 := input.characterDescriptions.foldl
    (fun acc nd => acc ++ nd.1 ++ (" is ").toList ++ nd.2 ++ (". ").toList) p3
  let p5 := if input.userPrompt ≠ [] then
      p4 ++ ("Request: ").toList ++ input.userPrompt ++ (". ").toList
    else p4
  p5 ++ ("\nCRITICAL REQUIREMENTS:\n- MAXIMUM ").toList ++
    (Nat.repr maxStoryWords).toList ++ (" words (count carefully!)\n- Complete story: beginning, middle, end\n- Age-appropriate for children 3-12\n- ").toList ++
    joinSep (", ").toList (input.storyType.characteristics.take 2) ++
    ("\n- Language: ").toList ++ input.language ++
    ("\n- Positive and magical\n- Every word must count\n\nWrite a complete, enchanting ").toList ++
    (Nat.repr maxStoryWords).toList ++ ("-word story.").toList

/-- Story statuses (models/storyModels.js:71-78). -/
inductive Status
  | draft
  | generating
  | processing
  | completed
  | failed
  | archived
deriving DecidableEq, Repr

/-- The `media` map of a story document. A continuation's update replaces
this map wholly (Firestore `update` semantics on a nested object), so all
fields are optional. -/
structure Media where
  narratorVoiceUrl : Option Str
  backgroundMusicUrl : Option Str
  illustrationUrls : List Str
  totalDuration : Option Nat
deriving DecidableEq, Repr

/-- The persisted story document, restricted to the fields the claims are
about (timestamps and the `metadata`/`userInput` maps are not modelled). -/
structure StoryRecord where
  status : Status
  title : Str
  content : Str
  characterNames : List Str
  media : Media
  error : Option Str
deriving DecidableEq, Repr

/-- The `aiService` calls a pipeline run can attempt. -/
inductive AICall
  | analyzeDrawing
  | transcribeVoice
  | generateStory
  | generateTitle
  | generateNarration
  | generateIllustrations
deriving DecidableEq, Repr, BEq

/-- A story-creation request that passed `createStory`'s validation
(existing story type; at least one of drawing, voice, prompt present). -/
structure CreateInput where
  storyType : StoryType
  drawingProvided : Bool
  voiceProvided : Bool
  characterNames : List Str
  characterDescriptions : List (Str × Str)
  userPrompt : Str
  generateIllustrations : Bool
  language : Str
deriving DecidableEq

/-- The initial story document persisted by `createStory`
(storyService.js:83-120): status `generating`, placeholder title, empty
content, no media URLs. -/
def initialRecord (inp : CreateInput) : StoryRecord :=
  { status := Status.generating
    title := ("Generating your magical story...").toList
    content := []
    characterNames := inp.characterNames
    media :=
      { narratorVoiceUrl := none
        backgroundMusicUrl := none
        illustrationUrls := []
        totalDuration := none }
    error := none }

/-- The `{status: FAILED, error}` update written by the catch handlers of
`generateStoryWithAI` and `createStory` (storyService.js:137-140, 263-268);
all other fields are left as they were. -/
def failUpdate (r : StoryRecord) (msg : Str) : StoryRecord :=
  { r with status := Status.failed, error := some msg }

/-- `storyService.selectBackgroundMusic(storyType)` (storyService.js:510-524). -/
def selectBackgroundMusic (storyType : StoryType) : Str :=
  let key := storyType.name.map Char.toLower
  let musicFile :=
    if key = ("adventure").toList then ("adventure_theme.mp3").toList
    else if key = ("fantasy").toList then ("magical_theme.mp3").toList
    else if key = ("mystery").toList then ("mysterious_theme.mp3").toList
    else if key = ("friendship").toList then ("heartwarming_theme.mp3").toList
    else if key = ("educational").toList then ("learning_theme.mp3").toList
    else if key = ("animal").toList then ("nature_theme.mp3").toList
    else if key = ("superhero").toList then ("heroic_theme.mp3").toList
    else if key = ("family").toList then ("cozy_theme.mp3").toList
    else ("general_theme.mp3").toList
  ("https://storage.googleapis.com/pictotale-music/").toList ++ musicFile

/-- Result of one `generateStoryWithAI` run: the successive persisted
snapshots of the story document (in write order), the `aiService` calls
attempted, the built prompt, and the thrown error if the run failed. -/
structure GenResult where
  writes : List StoryRecord
  calls : List AICall
  prompt : Str
  threw : Option Str
deriving DecidableEq

/-- `storyService.generateStoryWithAI(storyId, input)`
(storyService.js:154-271), started on the record created by `createStory`.
Steps, in source order: persist `processing`; analyze drawing and
transcribe voice when supplied (both total: provider errors degrade to
fallbacks); build the prompt; generate the story text (fatal on error);
content-safety gate (fatal, thrown before title or narration); generate the
title (never throws); generate narration (fatal on error); generate
illustrations when enabled (never throws); persist the completed record;
then await `updateUserProgressForStoryCreation` (storyService.js:259),
still inside the `try`: `storyRepository.updateUserProgress` rethrows its
Firestore error, so a failure here is caught like any other and persists
`{status: FAILED, error}` on top of the completed record.
A thrown error is caught, `{status: FAILED, error}` is persisted, and the
rethrow makes `createStory`'s `.catch` persist the same update again. -/
def generateStoryWithAI (inp : CreateInput) (e : Env) (r0 : StoryRecord) : GenResult :=
  let r1 : StoryRecord := { r0 with status := Status.processing }
  let drawingAnalysis :=
    if inp.drawingProvided then analyzeDrawing e.hasOpenAIKey e.drawingOutcome else []
  let voiceTranscription :=
    if inp.voiceProvided then transcribeVoice e.hasOpenAIKey e.voiceOutcome else []
  let callsPre :=
    (if inp.drawingProvided then [AICall.analyzeDrawing] else []) ++
    (if inp.voiceProvided then [AICall.transcribeVoice] else [])
  let storyPrompt := buildStoryPrompt
    { storyType := inp.storyType
      drawingAnalysis := drawingAnalysis
      voiceTranscription := voiceTranscription
      characterNames := inp.characterNames
      characterDescriptions := inp.characterDescriptions
      userPrompt := inp.userPrompt
      language := inp.language }
  match generateStory e with
  | CallOutcome.err m =>
    { writes := [r1, failUpdate r1 m, failUpdate r1 m]
      calls := callsPre ++ [AICall.generateStory]
      prompt := storyPrompt
      threw := some m }
  | CallOutcome.ok storyContent =>
    let safetyCheck := isContentSafe storyContent
    if safetyCheck.isSafe = false then
      let m := ("Content safety check failed: ").toList ++
        joinSep (", ").toList safetyCheck.flaggedWords
      { writes := [r1, failUpdate r1 m, failUpdate r1 m]
        calls := callsPre ++ [AICall.generateStory]
        prompt := storyPrompt
        threw := some m }
    else
      let storyTitle := generateTitle e inp.storyType.name
      match generateNarration e storyContent with
      | CallOutcome.err m =>
        { writes := [r1, failUpdate r1 m, failUpdate r1 m]
          calls := callsPre ++ [AICall.generateStory, AICall.generateTitle,
            AICall.generateNarration]
          prompt := storyPrompt
          threw := some m }
      | CallOutcome.ok audioData =>
        let completed : StoryRecord :=
          { r1 with
            title := storyTitle
            content := storyContent
            status := Status.completed
            media :=
              { narratorVoiceUrl := some e.audioUrl
                backgroundMusicUrl := some (selectBackgroundMusic inp.storyType)
                illustrationUrls :=
                  if inp.generateIllustrations then e.illustrationUrls else []
                totalDuration := some audioData.duration } }
        let callsAll := callsPre ++ [AICall.generateStory, AICall.generateTitle,
            AICall.generateNarration] ++
            (if inp.generateIllustrations then [AICall.generateIllustrations] else [])
        match e.userProgressOutcome with
        | CallOutcome.ok _ =>
          { writes := [r1, completed]
            calls := callsAll
            prompt := storyPrompt
            threw := none }
        | CallOutcome.err m =>
          { writes := [r1, completed, failUpdate completed m, failUpdate completed m]
            calls := callsAll
            prompt := storyPrompt
            threw := some m }

/-- All persisted snapshots of one creation request: the record written by
`createStory`, followed by the writes of its background generation run. -/
def genTrace (inp : CreateInput) (e : Env) : List StoryRecord :=
  initialRecord inp :: (generateStoryWithAI inp e (initialRecord inp)).writes

/-- A continuation request (`continueStory`'s body). -/
structure ContinuationData where
  additionalPrompt : Str
  newCharacters : List Str
deriving DecidableEq

/-- The input object `continueStory` passes to `continueStoryWithAI`
(storyService.js:337-342). It carries no `existingCharacterNames` key —
the field stays `none` — which `continueStoryWithAI` reads back with
`input.existingCharacterNames || []`. -/
structure ContInput where
  existingContent : Str
  additionalPrompt : Str
  newCharacters : List Str
  existingCharacterNames : Option (List Str)
deriving DecidableEq

/-- The continuation input as built by `continueStory` from the stored
record: note `existingCharacterNames := none` (the key is absent in the
source object literal). -/
def contInputOf (story : StoryRecord) (d : ContinuationData) : ContInput :=
  { existingContent := story.content
    additionalPrompt := d.additionalPrompt
    newCharacters := d.newCharacters
    existingCharacterNames := none }

/-- The continuation prompt template (storyService.js:369-377). -/
def continuationPrompt (input : ContInput) : Str :=
  ("Continue this children's story based on the user's request:\n      \n      Existing story:\n      ").toList ++
  input.existingContent ++
  ("\n      \n      User wants to add: ").toList ++ input.additionalPrompt ++
  ("\n      ").toList ++
  (if input.newCharacters.length > 0 then
    ("New characters: ").toList ++ joinSep (", ").toList input.newCharacters
   else []) ++
  ("\n      \n      Write a seamless continuation that maintains the story's tone and style. Make it engaging and age-appropriate.").toList

/-- The fields `continueStoryWithAI` writes on success. -/
structure ContUpdate where
  content : Str
  characterNames : List Str
  narratorVoiceUrl : Str
  totalDuration : Nat
deriving DecidableEq

/-- `storyService.continueStoryWithAI(storyId, input)`
(storyService.js:361-410): generate the continuation text (fatal on error),
append it to the existing content, narrate only the new segment (fatal on
error), and return the update payload; `characterNames` becomes
`(input.existingCharacterNames || []) ++ input.newCharacters`. Errors are
rethrown to the caller without any status write here. -/
def continueStoryWithAI (e : Env) (input : ContInput) : Except Str ContUpdate :=
  match generateStory e with
  | CallOutcome.err m => Except.error m
  | CallOutcome.ok continuation =>
    let newContent := input.existingContent ++ ("\n\n").toList ++ continuation
    match generateNarration e continuation with
    | CallOutcome.err m => Except.error m
    | CallOutcome.ok audioData =>
      Except.ok
        { content := newContent
          characterNames := (input.existingCharacterNames.getD []) ++ input.newCharacters
          narratorVoiceUrl := e.audioUrl
          totalDuration := audioData.duration }

/-- The persisted writes of one accepted continuation attempt
(`continueStory`, storyService.js:314-356): first `{status: GENERATING}`,
then on success the full update — whose `media` object wholly replaces the
stored map, erasing the background-music and illustration entries — and on
failure the `.catch` revert `{status: COMPLETED, error}`. -/
def continuationWrites (e : Env) (d : ContinuationData) (story : StoryRecord) :
    List StoryRecord :=
  let r1 : StoryRecord := { story with status := Status.generating }
  match continueStoryWithAI e (contInputOf story d) with
  | Except.error m =>
    [r1, { r1 with status := Status.completed, error := some m }]
  | Except.ok upd =>
    [r1, { r1 with
      content := upd.content
      status := Status.completed
      characterNames := upd.characterNames
      media :=
        { narratorVoiceUrl := some upd.narratorVoiceUrl
          backgroundMusicUrl := none
          illustrationUrls := []
          totalDuration := some upd.totalDuration } }]

/-- The persisted writes of a sequence of continuation attempts, each
starting from the latest stored record; an attempt on a record that is not
`completed` is rejected with a 400 before any write. -/
def contChain (story : StoryRecord) : List (ContinuationData × Env) → List StoryRecord
  | [] => []
  | (d, e) :: rest =>
    if story.status = Status.completed then
      let ws := continuationWrites e d story
      ws ++ contChain (ws.getLastD story) rest
    else contChain story rest

/-- Every persisted state of a story: creation, the generation run's writes,
then any sequence of continuation attempts. -/
def runHistory (inp : CreateInput) (e : Env) (conts : List (ContinuationData × Env)) :
    List StoryRecord :=
  let g := genTrace inp e
  g ++ contChain (g.getLastD (initialRecord inp)) conts

set_option maxRecDepth 16000

set_option maxHeartbeats 1600000

/-- An example story type (the seeded adventure type). -/
def storyTypeEx : StoryType :=
  { name := ("Adventure").toList
    characteristics := [("brave hero").toList, ("exciting journey").toList] }

/-- An accepted creation request with only a text prompt. -/
def inpEx : CreateInput :=
  { storyType := storyTypeEx
    drawingProvided := false
    voiceProvided := false
    characterNames := [("Pip").toList]
    characterDescriptions := []
    userPrompt := ("A mouse goes on an adventure").toList
    generateIllustrations := false
    language := ("en").toList }

/-- The simulated-mode environment: no API keys, so every generation step
uses its canned output and no provider call can throw. -/
def simEnv : Env :=
  { hasOpenAIKey := false
    hasElevenLabsKey := false
    simStoryIndex := 0
    drawingOutcome := CallOutcome.err []
    voiceOutcome := CallOutcome.err []
    storyOutcome := CallOutcome.err []
    titleOutcome := CallOutcome.err []
    narrationOutcome := CallOutcome.ok ()
    userProgressOutcome := CallOutcome.ok ()
    audioUrl := ("https://storage.example/narration.mp3").toList
    illustrationUrls := [] }

/-- A keyed environment whose story and title provider calls both return
the empty string: generation succeeds and the run completes with an empty
title and empty content. -/
def envEmpty : Env :=
  { simEnv with
    hasOpenAIKey := true
    storyOutcome := CallOutcome.ok []
    titleOutcome := CallOutcome.ok [] }

/-- An environment where every generation step succeeds but the final
`updateUserProgressForStoryCreation` step throws (the Firestore error is
rethrown by `storyRepository.updateUserProgress`). -/
def envProgressFail : Env :=
  { simEnv with
    userProgressOutcome := CallOutcome.err (("firestore unavailable").toList) }

/-- C1 counterexample: the record persisted by `createStory` starts in
`generating` status (storyService.js:88), not in `draft` as the claim
states; and the claim's unconditional "non-empty title and content" also
fails: with a keyed provider whose story and title responses are empty
strings, the run still completes — narration reference set — but the final
record's title and content are both empty. -/
theorem c1_counterexample :
    (initialRecord inpEx).status = Status.generating ∧
    (initialRecord inpEx).status ≠ Status.draft ∧
    (generateStoryWithAI inpEx envEmpty (initialRecord inpEx)).threw = none ∧
    ((genTrace inpEx envEmpty).getLastD (initialRecord inpEx)).status =
      Status.completed ∧
    ((genTrace inpEx envEmpty).getLastD (initialRecord inpEx)).title = [] ∧
    ((genTrace inpEx envEmpty).getLastD (initialRecord inpEx)).content = [] ∧
    (((genTrace inpEx envEmpty).getLastD
      (initialRecord inpEx)).media.narratorVoiceUrl).isSome = true := by
  decide

/-- C1 (amended): for every accepted creation request, the persisted record
starts in `generating` status; on a successful run the persisted statuses
are exactly generating, processing, completed; the final record has a
non-null narration reference, its content is the text returned by the
generation step and its title is the computed title; in simulated
(no-credential) mode title and content are non-empty. -/
theorem c1_successful_run_lifecycle (inp : CreateInput) (e : Env)
    (hsucc : (generateStoryWithAI inp e (initialRecord inp)).threw = none) :
    ((genTrace inp e).map (fun r => r.status) =
      [Status.generating, Status.processing, Status.completed]) ∧
    (((genTrace inp e).getLastD (initialRecord inp)).media.narratorVoiceUrl).isSome
      = true ∧
    (∃ s, generateStory e = CallOutcome.ok s ∧
      ((genTrace inp e).getLastD (initialRecord inp)).content = s) ∧
    ((genTrace inp e).getLastD (initialRecord inp)).title =
      generateTitle e inp.storyType.name ∧
    (e.hasOpenAIKey = false →
      ((genTrace inp e).getLastD (initialRecord inp)).title ≠ [] ∧
      ((genTrace inp e).getLastD (initialRecord inp)).content ≠ []) := by
  cases hgen : generateStory e with
  | err m =>
    exfalso
    simp [generateStoryWithAI, hgen] at hsucc
  | ok s =>
    by_cases hsafe : (isContentSafe s).isSafe = false
    · exfalso
      simp [generateStoryWithAI, hgen, hsafe] at hsucc
    · cases hnar : generateNarration e s with
      | err m =>
        exfalso
        simp [generateStoryWithAI, hgen, hsafe, hnar] at hsucc
      | ok audio =>
        cases hup : e.userProgressOutcome with
        | err m =>
          exfalso
          simp [generateStoryWithAI, hgen, hsafe, hnar, hup] at hsucc
        | ok u =>
        refine ⟨?_, ?_, ⟨s, rfl, ?_⟩, ?_, ?_⟩
        · simp [genTrace, generateStoryWithAI, hgen, hsafe, hnar, hup, initialRecord]
        · simp [genTrace, generateStoryWithAI, hgen, hsafe, hnar, hup]
        · simp [genTrace, generateStoryWithAI, hgen, hsafe, hnar, hup]
        · simp [genTrace, generateStoryWithAI, hgen, hsafe, hnar, hup]
        · intro hsim
          have hne : ∀ i : Fin 5, generateSimulatedShortStory i ≠ [] := by decide
          have hs : s = generateSimulatedShortStory e.simStoryIndex := by
            rw [generateStory, if_pos hsim] at hgen
            exact (CallOutcome.ok.injEq _ _).mp hgen.symm
          have hcontent : ((genTrace inp e).getLastD (initialRecord inp)).content = s := by
            simp [genTrace, generateStoryWithAI, hgen, hsafe, hnar, hup]
          have htitle : ((genTrace inp e).getLastD (initialRecord inp)).title =
              generateTitle e inp.storyType.name := by
            simp [genTrace, generateStoryWithAI, hgen, hsafe, hnar, hup]
          constructor
          · rw [htitle, generateTitle, if_pos hsim]
            simp [fallbackTitle]
          · rw [hcontent, hs]
            exact hne e.simStoryIndex

/-- C1 witness: the simulated-mode run on the example request succeeds and
walks generating, processing, completed. -/
theorem c1_witness :
    (generateStoryWithAI inpEx simEnv (initialRecord inpEx)).threw = none ∧
    ((genTrace inpEx simEnv).map (fun r => r.status) =
      [Status.generating, Status.processing, Status.completed]) := by
  have h : (generateStoryWithAI inpEx simEnv (initialRecord inpEx)).threw = none := by
    decide
  exact ⟨h, (c1_successful_run_lifecycle inpEx simEnv h).1⟩

/-- C2: when the generated text fails the content-safety check, the run ends
`failed` with a populated error, the title and narration calls are never
attempted, and the generation call is made exactly once (never retried). -/
theorem c2_safety_gate_fatal (inp : CreateInput) (e : Env) (s : Str)
    (hok : generateStory e = CallOutcome.ok s)
    (hflag : (isContentSafe s).isSafe = false) :
    ((generateStoryWithAI inp e (initialRecord inp)).threw).isSome = true ∧
    ((generateStoryWithAI inp e (initialRecord inp)).writes.getLastD
      (initialRecord inp)).status = Status.failed ∧
    (((generateStoryWithAI inp e (initialRecord inp)).writes.getLastD
      (initialRecord inp)).error).isSome = true ∧
    AICall.generateTitle ∉ (generateStoryWithAI inp e (initialRecord inp)).calls ∧
    AICall.generateNarration ∉ (generateStoryWithAI inp e (initialRecord inp)).calls ∧
    (generateStoryWithAI inp e (initialRecord inp)).calls.count AICall.generateStory
      = 1 := by
  refine ⟨?_, ?_, ?_, ?_, ?_, ?_⟩ <;>
    cases hd : inp.drawingProvided <;> cases hv : inp.voiceProvided <;>
      simp [generateStoryWithAI, hok, hflag, hd, hv, failUpdate,
        List.count_cons, List.count_nil] <;>
      decide

/-- C2 witness: a safe-looking pipeline in live mode whose provider returns
the text `A scary story.`; the safety gate trips and the run fails without
title or narration calls. -/
def envScary : Env :=
  { simEnv with
    hasOpenAIKey := true
    storyOutcome := CallOutcome.ok (("A scary story.").toList) }

theorem c2_witness :
    generateStory envScary = CallOutcome.ok (("A scary story.").toList) ∧
    (isContentSafe (("A scary story.").toList)).isSafe = false ∧
    ((generateStoryWithAI inpEx envScary (initialRecord inpEx)).writes.getLastD
      (initialRecord inpEx)).status = Status.failed ∧
    AICall.generateTitle ∉ (generateStoryWithAI inpEx envScary (initialRecord inpEx)).calls := by
  have h1 : generateStory envScary = CallOutcome.ok (("A scary story.").toList) := by
    decide
  have h2 : (isContentSafe (("A scary story.").toList)).isSafe = false := by decide
  have h3 := c2_safety_gate_fatal inpEx envScary (("A scary story.").toList) h1 h2
  exact ⟨h1, h2, h3.2.1, h3.2.2.2.1⟩

/-- The narration/status relationship that actually holds in every
reachable persisted state. -/
def narrInvariant (r : StoryRecord) : Prop :=
  (r.status = Status.completed → r.media.narratorVoiceUrl.isSome = true) ∧
  (r.status = Status.processing → r.media.narratorVoiceUrl = none) ∧
  (r.media.narratorVoiceUrl.isSome = true →
    r.status = Status.completed ∨ r.status = Status.generating ∨
      r.status = Status.failed)

theorem getLastD_mem : ∀ (l : List α) (d : α), l ≠ [] → l.getLastD d ∈ l := by
  intro l
  induction l with
  | nil => intro d h; exact absurd rfl h
  | cons a t ih =>
    intro d _
    rw [List.getLastD_cons]
    cases t with
    | nil => simp [List.getLastD]
    | cons b t' => exact List.mem_cons_of_mem a (ih a (by simp))

theorem narrInvariant_genTrace (inp : CreateInput) (e : Env) :
    ∀ r ∈ genTrace inp e, narrInvariant r := by
  intro r hr
  simp only [genTrace] at hr
  cases hgen : generateStory e with
  | err m =>
    simp [generateStoryWithAI, hgen] at hr
    rcases hr with rfl | rfl | rfl
    · simp [narrInvariant, initialRecord]
    · simp [narrInvariant, initialRecord]
    · simp [narrInvariant, initialRecord, failUpdate]
  | ok s =>
    by_cases hsafe : (isContentSafe s).isSafe = false
    · simp [generateStoryWithAI, hgen, hsafe] at hr
      rcases hr with rfl | rfl | rfl
      · simp [narrInvariant, initialRecord]
      · simp [narrInvariant, initialRecord]
      · simp [narrInvariant, initialRecord, failUpdate]
    · cases hnar : generateNarration e s with
      | err m =>
        simp [generateStoryWithAI, hgen, hsafe, hnar] at hr
        rcases hr with rfl | rfl | rfl
        · simp [narrInvariant, initialRecord]
        · simp [narrInvariant, initialRecord]
        · simp [narrInvariant, initialRecord, failUpdate]
      | ok audio =>
        cases hup : e.userProgressOutcome with
        | ok u =>
          simp [generateStoryWithAI, hgen, hsafe, hnar, hup] at hr
          rcases hr with rfl | rfl | rfl
          · simp [narrInvariant, initialRecord]
          · simp [narrInvariant, initialRecord]
          · simp [narrInvariant]
        | err m =>
          simp [generateStoryWithAI, hgen, hsafe, hnar, hup] at hr
          rcases hr with rfl | rfl | rfl | rfl
          · simp [narrInvariant, initialRecord]
          · simp [narrInvariant, initialRecord]
          · simp [narrInvariant]
          · simp [narrInvariant, failUpdate]

theorem narrInvariant_continuationWrites (e : Env) (d : ContinuationData)
    (story : StoryRecord) (hst : story.status = Status.completed)
    (hinv : narrInvariant story) :
    (∀ r ∈ continuationWrites e d story, narrInvariant r) ∧
    (continuationWrites e d story) ≠ [] ∧
    ∀ r, r = (continuationWrites e d story).getLastD story →
      r.status = Status.completed := by
  have hnarr : story.media.narratorVoiceUrl.isSome = true := hinv.1 hst
  cases hc : continueStoryWithAI e (contInputOf story d) with
  | error m =>
    refine ⟨?_, by simp [continuationWrites, hc], ?_⟩
    · intro r hr
      simp [continuationWrites, hc] at hr
      rcases hr with rfl | rfl
      · exact ⟨by simp, by simp, fun _ => Or.inr (Or.inl rfl)⟩
      · exact ⟨fun _ => hnarr, by simp, fun _ => Or.inl rfl⟩
    · intro r hr
      simp [continuationWrites, hc, List.getLastD] at hr
      rw [hr]
  | ok upd =>
    refine ⟨?_, by simp [continuationWrites, hc], ?_⟩
    · intro r hr
      simp [continuationWrites, hc] at hr
      rcases hr with rfl | rfl
      · exact ⟨by simp, by simp, fun _ => Or.inr (Or.inl rfl)⟩
      · exact ⟨fun _ => by simp, by simp, fun _ => Or.inl rfl⟩
    · intro r hr
      simp [continuationWrites, hc, List.getLastD] at hr
      rw [hr]

theorem narrInvariant_contChain :
    ∀ (conts : List (ContinuationData × Env)) (story : StoryRecord),
      narrInvariant story →
      ∀ r ∈ contChain story conts, narrInvariant r := by
  intro conts
  induction conts with
  | nil =>
    intro story _ r hr
    simp [contChain] at hr
  | cons de rest ih =>
    obtain ⟨d, e⟩ := de
    intro story hinv r hr
    simp only [contChain] at hr
    by_cases hst : story.status = Status.completed
    · rw [if_pos hst] at hr
      rcases List.mem_append.mp hr with h | h
      · exact (narrInvariant_continuationWrites e d story hst hinv).1 r h
      · have hspec := narrInvariant_continuationWrites e d story hst hinv
        have hmem := getLastD_mem _ story hspec.2.1
        exact ih _ (hspec.1 _ hmem) r h
    · rw [if_neg hst] at hr
      exact ih story hinv r hr

/-- C6 (amended): in every reachable persisted state, the narration
reference is present whenever `status = completed`, and absent while
`status = processing`; but neither direction of the claimed biconditional
holds: a non-null narration reference guarantees only `completed`,
`generating` (a continuation of a completed story in flight) or `failed`
(the post-completion `updateUserProgressForStoryCreation` step threw after
the completed write, so the catch persisted `failed` with the narration
reference retained). -/
theorem c6_narration_invariant_amended (inp : CreateInput) (e : Env)
    (conts : List (ContinuationData × Env)) (r : StoryRecord)
    (hr : r ∈ runHistory inp e conts) :
    (r.status = Status.completed → r.media.narratorVoiceUrl.isSome = true) ∧
    (r.status = Status.processing → r.media.narratorVoiceUrl = none) ∧
    (r.media.narratorVoiceUrl.isSome = true →
      r.status = Status.completed ∨ r.status = Status.generating ∨
        r.status = Status.failed) := by
  have hres : narrInvariant r := by
    simp only [runHistory] at hr
    rcases List.mem_append.mp hr with h | h
    · exact narrInvariant_genTrace inp e r h
    · have hne : genTrace inp e ≠ [] := by simp [genTrace]
      have hmem := getLastD_mem (genTrace inp e) (initialRecord inp) hne
      exact narrInvariant_contChain conts _
        (narrInvariant_genTrace inp e _ hmem) r h
  exact hres

/-- An example continuation request. -/
def contDataEx : ContinuationData :=
  { additionalPrompt := ("Add a friendly dragon").toList
    newCharacters := [("Spark").toList] }

/-- C6 counterexample, both directions. Forward: in the history made of a
successful simulated run followed by an accepted continuation, the
persisted state at index 3 (the continuation's `{status: GENERATING}`
write) still carries the narration URL of the completed story — non-null
narration without `completed`. Backward: when every generation step
succeeds but the trailing `updateUserProgressForStoryCreation` write
throws, the state at index 3 of that run's history (the catch's
`{status: FAILED}` write on top of the completed record) has
`status = failed` with the narration reference still set — so `failed`
does not imply the reference is absent either. -/
theorem c6_counterexample :
    3 < (runHistory inpEx simEnv [(contDataEx, simEnv)]).length ∧
    ((runHistory inpEx simEnv [(contDataEx, simEnv)]).getD 3
      (initialRecord inpEx)).media.narratorVoiceUrl.isSome = true ∧
    ((runHistory inpEx simEnv [(contDataEx, simEnv)]).getD 3
      (initialRecord inpEx)).status = Status.generating ∧
    ((runHistory inpEx simEnv [(contDataEx, simEnv)]).getD 3
      (initialRecord inpEx)).status ≠ Status.completed ∧
    3 < (runHistory inpEx envProgressFail []).length ∧
    ((runHistory inpEx envProgressFail []).getD 3
      (initialRecord inpEx)).media.narratorVoiceUrl.isSome = true ∧
    ((runHistory inpEx envProgressFail []).getD 3
      (initialRecord inpEx)).status = Status.failed := by
  decide

/-- C6 witness: the amended invariant applied to the freshly created record
of the simulated history. -/
theorem c6_witness :
    (initialRecord inpEx) ∈ runHistory inpEx simEnv [] ∧
    ((initialRecord inpEx).status = Status.completed →
      (initialRecord inpEx).media.narratorVoiceUrl.isSome = true) := by
  have hmem : (initialRecord inpEx) ∈ runHistory inpEx simEnv [] := by decide
  exact ⟨hmem, (c6_narration_invariant_amended inpEx simEnv [] _ hmem).1⟩

deriving instance DecidableEq for Except

/-- C7: a continuation attempt on a completed story whose generation or
narration call fails reverts the status to `completed` (not `failed`) and
leaves the prior content unchanged in every persisted write of the
attempt. -/
theorem c7_failed_continuation_reverts (story : StoryRecord) (e : Env)
    (d : ContinuationData) (hst : story.status = Status.completed) (m : Str)
    (hfail : continueStoryWithAI e (contInputOf story d) = Except.error m) :
    ((continuationWrites e d story).getLastD story).status = Status.completed ∧
    ((continuationWrites e d story).getLastD story).status ≠ Status.failed ∧
    ((continuationWrites e d story).getLastD story).content = story.content ∧
    ∀ r ∈ continuationWrites e d story, r.content = story.content := by
  refine ⟨?_, ?_, ?_, ?_⟩
  · simp [continuationWrites, hfail, List.getLastD]
  · simp [continuationWrites, hfail, List.getLastD]
  · simp [continuationWrites, hfail, List.getLastD]
  · intro r hr
    simp [continuationWrites, hfail] at hr
    rcases hr with rfl | rfl <;> simp

/-- A completed story on which continuations can be attempted. -/
def completedStoryEx : StoryRecord :=
  { status := Status.completed
    title := ("A Magical Adventure Tale").toList
    content := ("Once upon a time there was a brave mouse. The end!").toList
    characterNames := [("Pip").toList]
    media :=
      { narratorVoiceUrl := some (("https://storage.example/narration.mp3").toList)
        backgroundMusicUrl := none
        illustrationUrls := []
        totalDuration := some 10 }
    error := none }

/-- A live-mode environment whose text-generation call fails. -/
def envFail : Env :=
  { simEnv with
    hasOpenAIKey := true
    storyOutcome := CallOutcome.err (("boom").toList) }

/-- C7 witness: a failing continuation of the example completed story ends
with status `completed` and unchanged content. -/
theorem c7_witness :
    completedStoryEx.status = Status.completed ∧
    continueStoryWithAI envFail (contInputOf completedStoryEx contDataEx) =
      Except.error (("Failed to generate story content").toList) ∧
    ((continuationWrites envFail contDataEx completedStoryEx).getLastD
      completedStoryEx).status = Status.completed ∧
    ((continuationWrites envFail contDataEx completedStoryEx).getLastD
      completedStoryEx).content = completedStoryEx.content := by
  have h1 : completedStoryEx.status = Status.completed := rfl
  have h2 : continueStoryWithAI envFail (contInputOf completedStoryEx contDataEx) =
      Except.error (("Failed to generate story content").toList) := by decide
  have h3 := c7_failed_continuation_reverts completedStoryEx envFail contDataEx h1 _ h2
  exact ⟨h1, h2, h3.1, h3.2.2.1⟩

/-- C9: drawing-analysis and voice-transcription provider failures can never
fail a run: a thrown vision call degrades to the fixed fallback description,
a thrown transcription degrades to the empty string, the pipeline reaches
the text-generation call for every environment, and the persisted statuses,
the thrown error and the attempted calls do not depend on the outcomes of
those two provider calls. -/
theorem c9_drawing_voice_failures_never_fatal :
    (∀ m : Str, analyzeDrawing true (CallOutcome.err m) = fallbackDrawingAnalysis) ∧
    (∀ m : Str, transcribeVoice true (CallOutcome.err m) = []) ∧
    (∀ (inp : CreateInput) (e : Env),
      AICall.generateStory ∈ (generateStoryWithAI inp e (initialRecord inp)).calls) ∧
    (∀ (inp : CreateInput) (e : Env) (d₁ v₁ d₂ v₂ : CallOutcome Str),
      ((generateStoryWithAI inp { e with drawingOutcome := d₁, voiceOutcome := v₁ }
          (initialRecord inp)).writes.map (fun r => r.status) =
        (generateStoryWithAI inp { e with drawingOutcome := d₂, voiceOutcome := v₂ }
          (initialRecord inp)).writes.map (fun r => r.status)) ∧
      ((generateStoryWithAI inp { e with drawingOutcome := d₁, voiceOutcome := v₁ }
          (initialRecord inp)).threw =
        (generateStoryWithAI inp { e with drawingOutcome := d₂, voiceOutcome := v₂ }
          (initialRecord inp)).threw) ∧
      ((generateStoryWithAI inp { e with drawingOutcome := d₁, voiceOutcome := v₁ }
          (initialRecord inp)).calls =
        (generateStoryWithAI inp { e with drawingOutcome := d₂, voiceOutcome := v₂ }
          (initialRecord inp)).calls)) := by
  refine ⟨fun m => rfl, fun m => rfl, ?_, ?_⟩
  · intro inp e
    cases hgen : generateStory e with
    | err m => simp [generateStoryWithAI, hgen]
    | ok s =>
      by_cases hsafe : (isContentSafe s).isSafe = false
      · simp [generateStoryWithAI, hgen, hsafe]
      · cases hnar : generateNarration e s with
        | err m => simp [generateStoryWithAI, hgen, hsafe, hnar]
        | ok audio =>
          cases hup : e.userProgressOutcome with
          | ok u => simp [generateStoryWithAI, hgen, hsafe, hnar, hup]
          | err m => simp [generateStoryWithAI, hgen, hsafe, hnar, hup]
  · intro inp e d₁ v₁ d₂ v₂
    have hsame : ∀ d v, generateStory { e with drawingOutcome := d, voiceOutcome := v }
        = generateStory e := fun _ _ => rfl
    have hnr : ∀ d v (t : Str),
        generateNarration { e with drawingOutcome := d, voiceOutcome := v } t
          = generateNarration e t := fun _ _ _ => rfl
    have htit : ∀ d v (n : Str),
        generateTitle { e with drawingOutcome := d, voiceOutcome := v } n
          = generateTitle e n := fun _ _ _ => rfl
    cases hgen : generateStory e with
    | err m =>
      refine ⟨?_, ?_, ?_⟩ <;> simp [generateStoryWithAI, hsame, hgen]
    | ok s =>
      by_cases hsafe : (isContentSafe s).isSafe = false
      · refine ⟨?_, ?_, ?_⟩ <;> simp [generateStoryWithAI, hsame, hgen, hsafe]
      · cases hnar : generateNarration e s with
        | err m =>
          refine ⟨?_, ?_, ?_⟩ <;>
            simp [generateStoryWithAI, hsame, hnr, htit, hgen, hsafe, hnar]
        | ok audio =>
          refine ⟨?_, ?_, ?_⟩ <;>
            simp only [generateStoryWithAI, hsame, hnr, htit, hgen, hsafe, hnar] <;>
            cases hup : e.userProgressOutcome <;> simp [hup]

/-- C10: after every successful continuation, the persisted
`characterNames` is exactly the `newCharacters` list of the request: the
continuation input never carries the story's existing character names
(`existingCharacterNames` is always absent), so they are dropped. -/
theorem c10_continuation_replaces_character_names (story : StoryRecord)
    (e : Env) (d : ContinuationData) (upd : ContUpdate)
    (hok : continueStoryWithAI e (contInputOf story d) = Except.ok upd) :
    (contInputOf story d).existingCharacterNames = none ∧
    ((continuationWrites e d story).getLastD story).characterNames =
      d.newCharacters := by
  refine ⟨rfl, ?_⟩
  cases hgen : generateStory e with
  | err m => simp [continueStoryWithAI, hgen] at hok
  | ok s =>
    cases hnar : generateNarration e s with
    | err m => simp [continueStoryWithAI, hgen, hnar] at hok
    | ok audio =>
      simp [continueStoryWithAI, hgen, hnar, contInputOf] at hok
      simp [continuationWrites, continueStoryWithAI, hgen, hnar, contInputOf,
        List.getLastD, ← hok]

/-- The payload of the example successful continuation. -/
def contUpdateEx : ContUpdate :=
  match continueStoryWithAI simEnv (contInputOf completedStoryEx contDataEx) with
  | Except.ok u => u
  | Except.error _ =>
    { content := [], characterNames := [], narratorVoiceUrl := [], totalDuration := 0 }

/-- C10 witness: the simulated continuation of the example story succeeds
and leaves exactly the request's new characters persisted. -/
theorem c10_witness :
    continueStoryWithAI simEnv (contInputOf completedStoryEx contDataEx) =
      Except.ok contUpdateEx ∧
    ((continuationWrites simEnv contDataEx completedStoryEx).getLastD
      completedStoryEx).characterNames = contDataEx.newCharacters := by
  have h : continueStoryWithAI simEnv (contInputOf completedStoryEx contDataEx) =
      Except.ok contUpdateEx := by decide
  exact ⟨h,
    (c10_continuation_replaces_character_names completedStoryEx simEnv contDataEx
      contUpdateEx h).2⟩

/-- Outcome of one attempt of an operation wrapped by the retry executor:
success, a transient (retryable) failure, or a non-retryable failure
(authentication, validation, terminal quota). -/
inductive RetryOutcome (α : Type)
  | ok (val : α)
  | retryable (msg : Str)
  | nonRetryable (msg : Str)
deriving DecidableEq

/-- Modelled from the spec: the repository's `src/` tree contains no
RetryExecutor implementation (no retry or backoff code exists anywhere in
the sources); this value object follows §4.1 of the specification:
`maxAttempts`, `baseDelay`, `maxDelay`, with the retryable/non-retryable
classification carried by the outcome itself. -/
structure RetryPolicy where
  maxAttempts : Nat
  baseDelay : Nat
  maxDelay : Nat
deriving DecidableEq

/-- Result of a retry-executor run: the surfaced result, how many times the
operation was invoked, and the sleeps performed before each retry. -/
structure RetryResult (α : Type) where
  result : Except Str α
  invocations : Nat
  sleeps : List Nat
deriving DecidableEq

/-- Modelled from the spec (§4.1): run attempt number `attempt` of `op`,
with `remaining` further attempts allowed. Success returns immediately; a
non-retryable failure aborts immediately; a retryable failure sleeps
`min(baseDelay * 2^((attempt+1)-1), maxDelay)` before the next attempt, and
the last observed error is surfaced when attempts run out. -/
def executeGo (op : Nat → RetryOutcome α) (p : RetryPolicy) :
    Nat → Nat → RetryResult α
  | attempt, 0 =>
    match op attempt with
    | RetryOutcome.ok v =>
      { result := Except.ok v, invocations := 1, sleeps := [] }
    | RetryOutcome.retryable m =>
      { result := Except.error m, invocations := 1, sleeps := [] }
    | RetryOutcome.nonRetryable m =>
      { result := Except.error m, invocations := 1, sleeps := [] }
  | attempt, remaining + 1 =>
    match op attempt with
    | RetryOutcome.ok v =>
      { result := Except.ok v, invocations := 1, sleeps := [] }
    | RetryOutcome.nonRetryable m =>
      { result := Except.error m, invocations := 1, sleeps := [] }
    | RetryOutcome.retryable _ =>
      let d := min (p.baseDelay * 2 ^ attempt) p.maxDelay
      let r := executeGo op p (attempt + 1) remaining
      { result := r.result, invocations := r.invocations + 1, sleeps := d :: r.sleeps }

/-- Modelled from the spec (§4.1): `execute(operation, policy)` calls the
operation up to `policy.maxAttempts` times, attempts numbered from 1. -/
def RetryExecutor.execute (op : Nat → RetryOutcome α) (p : RetryPolicy) :
    RetryResult α :=
  executeGo op p 1 (p.maxAttempts - 1)

theorem executeGo_invocations_pos (op : Nat → RetryOutcome α) (p : RetryPolicy) :
    ∀ (remaining attempt : Nat), 1 ≤ (executeGo op p attempt remaining).invocations := by
  intro remaining
  induction remaining with
  | zero =>
    intro attempt
    cases hop : op attempt <;> simp [executeGo, hop]
  | succ n ih =>
    intro attempt
    cases hop : op attempt <;> simp [executeGo, hop]

theorem executeGo_sleeps (op : Nat → RetryOutcome α) (p : RetryPolicy) :
    ∀ (remaining attempt : Nat),
      (executeGo op p attempt remaining).sleeps =
        (List.range ((executeGo op p attempt remaining).invocations - 1)).map
          (fun i => min (p.baseDelay * 2 ^ (attempt + i)) p.maxDelay) := by
  intro remaining
  induction remaining with
  | zero =>
    intro attempt
    cases hop : op attempt <;> simp [executeGo, hop]
  | succ n ih =>
    intro attempt
    cases hop : op attempt with
    | ok v => simp [executeGo, hop]
    | nonRetryable m => simp [executeGo, hop]
    | retryable m =>
      have hpos := executeGo_invocations_pos op p n (attempt + 1)
      obtain ⟨j, hj⟩ : ∃ j, (executeGo op p (attempt + 1) n).invocations = j + 1 :=
        ⟨(executeGo op p (attempt + 1) n).invocations - 1, by omega⟩
      simp only [executeGo, hop]
      rw [ih (attempt + 1), hj]
      simp only [Nat.add_sub_cancel, List.range_succ_eq_map, List.map_cons,
        List.map_map, Nat.add_zero, Nat.pow_zero]
      congr 1
      apply List.map_congr_left
      intro i _
      simp only [Function.comp, Nat.succ_eq_add_one]
      have hexp : attempt + 1 + i = attempt + (i + 1) := by omega
      rw [hexp]

/-- C8 (modelled from the spec, §4.1 and §8): the retry executor calls the
operation up to `maxAttempts` times, sleeping
`min(baseDelay * 2^(attempt-1), maxDelay)` before each retry; an operation
failing twice then succeeding under `maxAttempts = 3` succeeds with exactly
3 invocations; an operation always failing non-retryably is invoked exactly
once. -/
theorem c8_retry_executor :
    (∀ (b m : Nat),
      (RetryExecutor.execute
        (fun k => if k ≤ 2 then RetryOutcome.retryable (("transient").toList)
                  else RetryOutcome.ok 42)
        { maxAttempts := 3, baseDelay := b, maxDelay := m }).result = Except.ok 42 ∧
      (RetryExecutor.execute
        (fun k => if k ≤ 2 then RetryOutcome.retryable (("transient").toList)
                  else RetryOutcome.ok 42)
        { maxAttempts := 3, baseDelay := b, maxDelay := m }).invocations = 3 ∧
      (RetryExecutor.execute
        (fun k => if k ≤ 2 then RetryOutcome.retryable (("transient").toList)
                  else RetryOutcome.ok 42)
        { maxAttempts := 3, baseDelay := b, maxDelay := m }).sleeps =
        [min (b * 2 ^ 1) m, min (b * 2 ^ 2) m]) ∧
    (∀ (α : Type) (op : Nat → RetryOutcome α) (p : RetryPolicy),
      (∀ k, ∃ msg, op k = RetryOutcome.nonRetryable msg) →
      (RetryExecutor.execute op p).invocations = 1) ∧
    (∀ (α : Type) (op : Nat → RetryOutcome α) (p : RetryPolicy),
      (RetryExecutor.execute op p).sleeps =
        (List.range ((RetryExecutor.execute op p).invocations - 1)).map
          (fun i => min (p.baseDelay * 2 ^ ((i + 2) - 1)) p.maxDelay)) := by
  refine ⟨?_, ?_, ?_⟩
  · intro b m
    exact ⟨rfl, rfl, rfl⟩
  · intro α op p h
    obtain ⟨msg, hmsg⟩ := h 1
    unfold RetryExecutor.execute
    cases hk : p.maxAttempts - 1 with
    | zero => simp [executeGo, hmsg]
    | succ n => simp [executeGo, hmsg]
  · intro α op p
    unfold RetryExecutor.execute
    rw [executeGo_sleeps op p (p.maxAttempts - 1) 1]
    apply List.map_congr_left
    intro i _
    have hexp : (i + 2) - 1 = 1 + i := by omega
    rw [hexp]

/-- A wrapped operation that always fails non-retryably. -/
def constNonRetry : Nat → RetryOutcome Nat :=
  fun _ => RetryOutcome.nonRetryable (("auth").toList)

/-- C8 witness: the always-non-retryable operation is invoked exactly once
under a 3-attempt policy. -/
theorem c8_witness :
    (∀ k, ∃ msg, constNonRetry k = RetryOutcome.nonRetryable msg) ∧
    (RetryExecutor.execute constNonRetry
      { maxAttempts := 3, baseDelay := 5, maxDelay := 8 }).invocations = 1 := by
  have h : ∀ k, ∃ msg, constNonRetry k = RetryOutcome.nonRetryable msg :=
    fun _ => ⟨("auth").toList, rfl⟩
  exact ⟨h, c8_retry_executor.2.1 Nat constNonRetry _ h⟩
